import Mathlib

/-!
Verification of the heterogeneous data-source gateway
(`src/MCP/cdata-server/src/index.ts`).

The TypeScript server is shallowly embedded: JavaScript values appearing in
JSON documents become the inductive type `JValue` (with an explicit `undef`
constructor for JavaScript's `undefined`), the registry `Map` becomes an
association list, and every effectful boundary (the file system, the sqlite
library, the HTTP client, the CSV row stream) becomes an explicit parameter
of the embedded operation.  Each definition mirrors the control flow of the
corresponding TypeScript function.
-/

/-- Single-quote character as a string, used to reproduce the quoted
data-source names in the server's error and status messages. -/
def squote : String := String.mk [Char.ofNat 39]

/-- JavaScript-like values. `undef` represents `undefined`, which never
occurs in a parsed JSON document but arises from missed property lookups. -/
inductive JValue where
  | undef : JValue
  | null : JValue
  | bool (b : Bool) : JValue
  | num (n : Int) : JValue
  | str (s : String) : JValue
  | arr (elems : List JValue) : JValue
  | obj (fields : List (String × JValue)) : JValue

/-- Lookup of a field in an object's field list; a missing field yields
`undef`, exactly as JavaScript property access on an object does. -/
def lookupField (fields : List (String × JValue)) (key : String) : JValue :=
  match fields.find? (fun p => p.1 == key) with
  | some p => p.2
  | none => JValue.undef

/-- Splits a character list at every occurrence of `c`, matching the
semantics of JavaScript `String.prototype.split` with a one-character
separator (so the empty input splits to one empty piece). -/
def splitOnChar (c : Char) : List Char → List (List Char)
  | [] => [[]]
  | x :: xs =>
    let r := splitOnChar c xs
    if x == c then [] :: r
    else
      match r with
      | [] => [[x]]
      | y :: ys => (x :: y) :: ys

/-- Removes the first occurrence of `c`, matching JavaScript
`String.prototype.replace` with a string pattern (first match only),
as in `index.replace(']', '')`. -/
def removeFirstChar (c : Char) : List Char → List Char
  | [] => []
  | x :: xs => if x == c then xs else x :: removeFirstChar c xs

/-- Decimal digits to a natural number. -/
def digitsToNat (ds : List Char) : Nat :=
  ds.foldl (fun n c => n * 10 + (c.toNat - 48)) 0

/-- JavaScript `parseInt` restricted to decimal input: skip leading
whitespace, optional sign, then the longest digit prefix; `none` models
`NaN` when no digits are found. -/
def parseIntJS (s : String) : Option Int :=
  let cs := s.toList.dropWhile (fun c => c.isWhitespace)
  let signAndRest : Int × List Char :=
    match cs with
    | '-' :: r => (-1, r)
    | '+' :: r => (1, r)
    | _ => (1, cs)
  let ds := signAndRest.2.takeWhile (fun c => c.isDigit)
  if ds.isEmpty then none
  else some (signAndRest.1 * (digitsToNat ds : Int))

/-- JavaScript property access `v[key]` for a string key: throws a
TypeError on `undefined` and `null`, looks up the field on objects,
indexes arrays when the key is a canonical numeric string, and yields
`undefined` otherwise (message text abridged to omit the key). -/
def jsGetField : JValue → String → Except String JValue
  | JValue.undef, _ => Except.error "TypeError: Cannot read properties of undefined"
  | JValue.null, _ => Except.error "TypeError: Cannot read properties of null"
  | JValue.obj fields, key => Except.ok (lookupField fields key)
  | JValue.arr elems, key =>
    match key.toNat? with
    | some i => Except.ok (elems.getD i JValue.undef)
    | none => Except.ok JValue.undef
  | _, _ => Except.ok JValue.undef

/-- JavaScript indexing `v[idx]` where `idx` is the result of `parseInt`
(`none` models `NaN`): throws on `undefined`/`null`, returns the array
element when in range and `undefined` otherwise. -/
def jsGetIndex : JValue → Option Int → Except String JValue
  | JValue.undef, _ => Except.error "TypeError: Cannot read properties of undefined"
  | JValue.null, _ => Except.error "TypeError: Cannot read properties of null"
  | JValue.arr elems, some i =>
    if i < 0 then Except.ok JValue.undef
    else Except.ok (elems.getD i.toNat JValue.undef)
  | JValue.obj fields, some i => Except.ok (lookupField fields (toString i))
  | _, _ => Except.ok JValue.undef

/-- JavaScript `Object.values` as used in the wildcard branch: arrays pass
through unchanged, objects expand to their values, `undefined` and `null`
throw, strings expand to their characters, other primitives give `[]`. -/
def evalWildcard : JValue → Except String JValue
  | JValue.arr elems => Except.ok (JValue.arr elems)
  | JValue.undef => Except.error "TypeError: Cannot convert undefined or null to object"
  | JValue.null => Except.error "TypeError: Cannot convert undefined or null to object"
  | JValue.obj fields => Except.ok (JValue.arr (fields.map (fun p => p.2)))
  | JValue.str s => Except.ok (JValue.arr (s.toList.map (fun c => JValue.str (String.singleton c))))
  | _ => Except.ok (JValue.arr [])

/-- Does the string contain the character? (JavaScript `includes`.) -/
def hasChar (s : String) (c : Char) : Bool := s.toList.contains c

/-- One path segment of `readJson`'s simple JSONPath evaluator: bracket
segments like `b[0]` split on `[`, strip the first `]` from the index and
apply `parseInt`; `*` is the wildcard; otherwise plain property access. -/
def evalSegment (result : JValue) (part : String) : Except String JValue :=
  if hasChar part '[' && hasChar part ']' then
    match splitOnChar '[' part.toList with
    | field :: index :: _ =>
      let idx := parseIntJS (String.mk (removeFirstChar ']' index))
      match jsGetField result (String.mk field) with
      | Except.error e => Except.error e
      | Except.ok v => jsGetIndex v idx
    | _ => jsGetField result part
  else if part == "*" then
    evalWildcard result
  else
    jsGetField result part

/-- Strips a leading `$.` from the path, as `jsonPath.replace(/^\$\./, '')`. -/
def stripDollarRoot (s : String) : String :=
  match s.toList with
  | '$' :: '.' :: rest => String.mk rest
  | _ => s

/-- Path splitting of `readJson`: strip the `$.` root marker, then split
on dots. -/
def splitPath (jsonPath : String) : List String :=
  (splitOnChar '.' (stripDollarRoot jsonPath).toList).map String.mk

/-- Left-to-right evaluation of the split path against the root document,
mirroring the `for (const part of pathParts)` loop; the first TypeError
aborts evaluation. -/
def evalJsonPath (doc : JValue) (jsonPath : String) : Except String JValue :=
  (splitPath jsonPath).foldlM evalSegment doc

/-- Configuration object of a data source; each field optional, as the
TypeScript `config` is an arbitrary object. -/
structure Config where
  path : Option String
  url : Option String
  headers : Option (List (String × String))

/-- JavaScript truthiness of an optional string: absent and empty strings
are falsy (used for `!config.path`, `!config.url`, `if (jsonPath)`). -/
def strTruthy : Option String → Bool
  | none => false
  | some s => !s.isEmpty

/-- Stringification of an optional string in a template literal: an absent
value renders as the text `undefined`. -/
def jsTemplateStr : Option String → String
  | none => "undefined"
  | some s => s

/-- Registered data source descriptor, as the `DataSource` interface. -/
structure DataSource where
  type : String
  name : String
  config : Config

/-- The registry `this.dataSources : Map<string, DataSource>`, embedded as
an association list in insertion order. -/
abbrev Registry := List (String × DataSource)

/-- `Map.get`: first binding of the name, if any. -/
def regGet (reg : Registry) (name : String) : Option DataSource :=
  (reg.find? (fun p => p.1 == name)).map (fun p => p.2)

/-- `Map.has`. -/
def regHas (reg : Registry) (name : String) : Bool :=
  (regGet reg name).isSome

/-- `Map.set` for a key that is not yet present (the only way the server
calls it): append the new binding. -/
def regSet (reg : Registry) (name : String) (ds : DataSource) : Registry :=
  reg ++ [(name, ds)]

/-- Successful response of `register_data_source`. -/
structure RegisterResponse where
  success : Bool
  message : String
  dataSource : DataSource

/-- Kind-specific configuration validation of `registerDataSource` (the
`switch (type)` block): the file-backed kinds `sqlite`, `csv` and `json`
require a truthy `config.path` naming an existing file; `api` requires a
truthy `config.url`; every other type string hits no `case` and is not
validated at all. -/
def validateConfig (fsExists : String → Bool) (type : String)
    (config : Config) : Except String Unit :=
  if type == "sqlite" || type == "csv" || type == "json" then
    if !(strTruthy config.path) then
      Except.error ("" ++ squote ++ "path" ++ squote ++ " is required for " ++ type ++ " data sources")
    else if !(fsExists (jsTemplateStr config.path)) then
      Except.error ("File not found: " ++ jsTemplateStr config.path)
    else Except.ok ()
  else if type == "api" then
    if !(strTruthy config.url) then
      Except.error ("" ++ squote ++ "url" ++ squote ++ " is required for API data sources")
    else Except.ok ()
  else Except.ok ()

/-- Embedding of `registerDataSource(name, type, config)`.  The file
system is the explicit parameter `fsExists` (the `fs.existsSync` calls).
Returns the registry after the call together with the result; on every
error path the registry is returned as it was. -/
def registerDataSource (fsExists : String → Bool) (reg : Registry)
    (name type : String) (config : Config) :
    Registry × Except String RegisterResponse :=
  if regHas reg name then
    (reg, Except.error ("Data source " ++ squote ++ name ++ squote ++ " already exists"))
  else
    let dataSource : DataSource := { type := type, name := name, config := config }
    match validateConfig fsExists type config with
    | Except.error e => (reg, Except.error e)
    | Except.ok _ =>
      (regSet reg name dataSource,
       Except.ok { success := true
                 , message := "Data source " ++ squote ++ name ++ squote ++ " registered successfully"
                 , dataSource := dataSource })

/-- Embedding of `readJson(sourceName, jsonPath)`.  The parsed content of
the file at the descriptor's path is the explicit parameter `doc` (the
result of `JSON.parse`, hence never `undef`); `jsonPath` is optional and
tested for truthiness as in `if (jsonPath)`. -/
def readJson (reg : Registry) (sourceName : String) (doc : JValue)
    (jsonPath : Option String) : Except String JValue :=
  match regGet reg sourceName with
  | none => Except.error ("Data source " ++ squote ++ sourceName ++ squote ++ " not found")
  | some ds =>
    if ds.type != "json" then
      Except.error ("Data source " ++ squote ++ sourceName ++ squote ++ " is not a JSON file")
    else
      match jsonPath with
      | none => Except.ok doc
      | some p => if p.isEmpty then Except.ok doc else evalJsonPath doc p

/-- Rows returned by a SQL query, as parsed by the sqlite driver. -/
abbrev JRow := List (String × JValue)

/-- Connection-lifecycle events of the relational connector. -/
inductive SqlEvent where
  | openConn : SqlEvent
  | closeConn : SqlEvent
  deriving DecidableEq, Repr

/-- Outcome of one `querySql` invocation: the connection events performed
before the promise settles, and the settled result (`rowCount`, rows). -/
structure SqlResult where
  events : List SqlEvent
  outcome : Except String (Nat × List JRow)

/-- Embedding of `querySql(sourceName, query)`.  The sqlite library is
externalized: `openErr` is the error the `new sqlite3.Database` callback
would report, `queryRes` the result the `db.all` callback would deliver on
a successfully opened connection.  `events` records, in order, the
connection open and close performed before the promise settles: on the
open-error path the code rejects directly inside the open callback, with
no preceding `db.close()`; on the query-error path it calls `db.close()`
and then rejects; on success it calls `db.close()` and then resolves. -/
def querySql (reg : Registry) (sourceName : String) (query : String)
    (openErr : Option String) (queryRes : Except String (List JRow)) : SqlResult :=
  match regGet reg sourceName with
  | none =>
    { events := []
    , outcome := Except.error ("Data source " ++ squote ++ sourceName ++ squote ++ " not found") }
  | some ds =>
    if ds.type != "sqlite" then
      { events := []
      , outcome := Except.error ("Data source " ++ squote ++ sourceName ++ squote ++ " is not a SQLite database") }
    else
      match openErr with
      | some m =>
        { events := [SqlEvent.openConn]
        , outcome := Except.error ("Failed to open database: " ++ m) }
      | none =>
        match queryRes with
        | Except.error m =>
          { events := [SqlEvent.openConn, SqlEvent.closeConn]
          , outcome := Except.error ("Query failed: " ++ m) }
        | Except.ok rows =>
          { events := [SqlEvent.openConn, SqlEvent.closeConn]
          , outcome := Except.ok (rows.length, rows) }

/-- Request object the remote API connector hands to the HTTP client. -/
structure RequestConfig where
  method : String
  url : String
  headers : List (String × String)
  params : Option JValue
  data : Option JValue

/-- JavaScript truthiness of a value: `undefined`, `null`, `false`, `0`
and the empty string are falsy; every object and array is truthy. -/
def jsTruthy : JValue → Bool
  | JValue.undef => false
  | JValue.null => false
  | JValue.bool b => b
  | JValue.num n => n != 0
  | JValue.str s => !s.isEmpty
  | JValue.arr _ => true
  | JValue.obj _ => true

/-- Truthiness of an optional argument: absent arguments are `undefined`,
hence falsy; present arguments are as truthy as their value. -/
def optTruthy : Option JValue → Bool
  | none => false
  | some v => jsTruthy v

/-- Construction of the outgoing request in `fetchApiData`: the target
address is the template-literal concatenation of the descriptor's base url
and the endpoint, base headers apply (defaulting to the empty object),
`params` is attached when truthy (`if (params)`), and the body is attached
only when truthy and the method is POST or PUT
(`if (body && (method === POST || method === PUT))`). -/
def buildApiRequest (ds : DataSource) (endpoint method : String)
    (params body : Option JValue) : RequestConfig :=
  { method := method
  , url := jsTemplateStr ds.config.url ++ endpoint
  , headers := ds.config.headers.getD []
  , params := if optTruthy params then params else none
  , data := if optTruthy body && (method == "POST" || method == "PUT") then body else none }

/-- Embedding of the part of `fetchApiData` that runs before the HTTP call
is issued: resolve the descriptor, check its kind, and build the request
that would be passed to the HTTP client. -/
def fetchApiRequest (reg : Registry) (sourceName endpoint method : String)
    (params body : Option JValue) : Except String RequestConfig :=
  match regGet reg sourceName with
  | none => Except.error ("Data source " ++ squote ++ sourceName ++ squote ++ " not found")
  | some ds =>
    if ds.type != "api" then
      Except.error ("Data source " ++ squote ++ sourceName ++ squote ++ " is not an API")
    else
      Except.ok (buildApiRequest ds endpoint method params body)

/-- Error message raised when the HTTP call fails: the remote-reported
status text is preferred over the transport error message, via JavaScript
`error.response?.statusText || error.message` (empty status text is falsy). -/
def apiErrorMessage (statusText : Option String) (message : String) : String :=
  "API request failed: " ++ (if strTruthy statusText then jsTemplateStr statusText else message)

/-- One CSV row as delivered by the csv parser: column name to cell text. -/
abbrev CsvRow := List (String × String)

/-- Filter mapping of `read_csv`: column name to required value (an
arbitrary JSON value, compared with strict equality). -/
abbrev CsvFilter := List (String × JValue)

/-- Cell lookup `row[key]`: `none` models `undefined` for an absent column. -/
def csvGet (row : CsvRow) (key : String) : Option String :=
  (row.find? (fun p => p.1 == key)).map (fun p => p.2)

/-- JavaScript strict equality `row[key] === value` where the row value is
a string or `undefined` and the filter value an arbitrary JSON value. -/
def strictEqRowVal (rowVal : Option String) (v : JValue) : Bool :=
  match rowVal, v with
  | some s, JValue.str t => s == t
  | _, _ => false

/-- Row predicate of the `data` handler: with a filter object present, the
row is kept when every filter entry strictly equals the row's value at
that key (`Object.entries(filter).every`); with no filter every row is
kept. -/
def rowKept (filter : Option CsvFilter) (row : CsvRow) : Bool :=
  match filter with
  | some f => f.all (fun kv => strictEqRowVal (csvGet row kv.1) kv.2)
  | none => true

/-- JavaScript truthiness of the optional numeric `limit`: absent and `0`
are falsy (`if (limit && ...)`). -/
def natTruthy : Option Nat → Bool
  | none => false
  | some n => n != 0

/-- Fate of the promise returned by `readCsv` on an error-free run of the
underlying streams.  `resolved records` is the path where the source
stream reaches end of file, `pipe` ends the parser and the parser's end
event fires, resolving with the kept records.  `pending records` is the
path where `stream.destroy()` was called on the source: a destroyed source
never emits its end event, `pipe` therefore never ends the parser, the
parser's end event never fires (and the error handler, attached to the
parser, sees no error either), so the promise never settles; `records`
are the rows the data handler had pushed by then. -/
inductive CsvPromise where
  | resolved (records : List CsvRow) : CsvPromise
  | pending (records : List CsvRow) : CsvPromise
  deriving DecidableEq, Repr

/-- Delivery of the rows parsed from one source chunk to the data handler.
The parser emits every row of a chunk it has received even if
`stream.destroy()` is called on the source partway through — destroying
the source does not un-buffer the parser — so the whole chunk is
processed: each row is kept or dropped by the filter, and the destroyed
flag becomes (and stays) true as soon as the limit is truthy and the
kept-row count has reached it after a push.  The limit is the row count
from the tool schema, embedded as a natural number. -/
def processChunk (filter : Option CsvFilter) (limit : Option Nat) :
    List CsvRow → List CsvRow → Bool → List CsvRow × Bool
  | [], acc, destroyed => (acc, destroyed)
  | row :: rest, acc, destroyed =>
    let acc2 := if rowKept filter row then acc ++ [row] else acc
    let destroyed2 := destroyed || (natTruthy limit && decide (limit.getD 0 ≤ acc2.length))
    processChunk filter limit rest acc2 destroyed2

/-- Chunk-level run of the piped streams: source chunks are delivered to
the parser in order; once the source has been destroyed no further chunk
is read and — the source's end event being suppressed — the parser's end
event never fires, leaving the promise pending; if every chunk is
delivered without a destroy, the end event resolves the promise with the
kept records. -/
def chunkLoop (filter : Option CsvFilter) (limit : Option Nat) :
    List (List CsvRow) → List CsvRow → CsvPromise
  | [], acc => CsvPromise.resolved acc
  | chunk :: rest, acc =>
    match processChunk filter limit chunk acc false with
    | (acc2, true) => CsvPromise.pending acc2
    | (acc2, false) => chunkLoop filter limit rest acc2

/-- Embedding of `readCsv(sourceName, filter, limit)` on an error-free
run.  The rows the CSV parser extracts from the file at the descriptor's
path are the explicit parameter `chunks`, grouped by the source-stream
chunk that carried them (a small file arrives as a single chunk). -/
def readCsv (reg : Registry) (sourceName : String) (filter : Option CsvFilter)
    (limit : Option Nat) (chunks : List (List CsvRow)) : Except String CsvPromise :=
  match regGet reg sourceName with
  | none => Except.error ("Data source " ++ squote ++ sourceName ++ squote ++ " not found")
  | some ds =>
    if ds.type != "csv" then
      Except.error ("Data source " ++ squote ++ sourceName ++ squote ++ " is not a CSV file")
    else
      Except.ok (chunkLoop filter limit chunks [])

/-- Response of `transform_data`. -/
structure TransformResponse where
  success : Bool
  message : String
  operation : String
  field : Option String
  note : String

/-- Fixed note text of the transform acknowledgement. -/
def transformNote : String :=
  "This is a demo - full implementation would require fetching and processing actual data"

/-- Message text of the transform acknowledgement. -/
def transformMessage (operation sourceName : String) : String :=
  "Transformation " ++ squote ++ operation ++ squote ++
    " would be applied to data source " ++ squote ++ sourceName ++ squote

/-- Embedding of `transformData(sourceName, operation, field)`: resolve the
descriptor (any kind) and return the structured acknowledgement; no rows
are fetched and no computation over data occurs (the function only reads
the registry, so all state is left unchanged). -/
def transformData (reg : Registry) (sourceName operation : String)
    (field : Option String) : Except String TransformResponse :=
  match regGet reg sourceName with
  | none => Except.error ("Data source " ++ squote ++ sourceName ++ squote ++ " not found")
  | some _ =>
    Except.ok { success := true
              , message := transformMessage operation sourceName
              , operation := operation
              , field := field
              , note := transformNote }

/-! Concrete fixtures used by witnesses and counterexamples: one registered
source of each kind, the sample document of the spec's §8, and a small row
set. -/

/-- Field list of the document from the spec's structured-document test. -/
def docABfields : List (String × JValue) :=
  [("a", JValue.obj [("b", JValue.arr [JValue.num 10, JValue.num 20])])]

/-- The parsed document of the spec's structured-document test. -/
def docAB : JValue := JValue.obj docABfields

/-- Registered json source. -/
def dsJson : DataSource :=
  { type := "json", name := "docsrc"
  , config := { path := some "/data/doc.json", url := none, headers := none } }

/-- Registry holding only the json source. -/
def regJson : Registry := [("docsrc", dsJson)]

/-- Registered sqlite source. -/
def dsSql : DataSource :=
  { type := "sqlite", name := "maindb"
  , config := { path := some "/data/app.db", url := none, headers := none } }

/-- Registry holding only the sqlite source. -/
def regSql : Registry := [("maindb", dsSql)]

/-- Registered csv source. -/
def dsCsv : DataSource :=
  { type := "csv", name := "rows"
  , config := { path := some "/data/rows.csv", url := none, headers := none } }

/-- Registry holding only the csv source. -/
def regCsv : Registry := [("rows", dsCsv)]

/-- Registered api source. -/
def dsApi : DataSource :=
  { type := "api", name := "svc"
  , config := { path := none, url := some "http://localhost:3000/api"
              , headers := some [("X-Token", "abc")] } }

/-- Registry holding only the api source. -/
def regApi : Registry := [("svc", dsApi)]

/-- Three sample CSV rows. -/
def sampleRows : List CsvRow :=
  [ [("id", "1"), ("country", "USA")]
  , [("id", "2"), ("country", "UK")]
  , [("id", "3"), ("country", "USA")] ]

/-! Helper lemmas about the embedded operations. -/

/-- Resolution step of `readCsv` for a registered csv source. -/
theorem readCsv_resolved (reg : Registry) (name : String) (ds : DataSource)
    (filter : Option CsvFilter) (limit : Option Nat) (chunks : List (List CsvRow))
    (hreg : regGet reg name = some ds) (hty : ds.type = "csv") :
    readCsv reg name filter limit chunks = Except.ok (chunkLoop filter limit chunks []) := by
  simp [readCsv, hreg, hty]

/-- Chunk delivery with no limit: every row passing the filter is kept and
the stream is never destroyed. -/
theorem processChunk_no_limit (filter : Option CsvFilter) :
    ∀ (rows acc : List CsvRow),
      processChunk filter none rows acc false =
        (acc ++ rows.filter (rowKept filter), false) := by
  intro rows
  induction rows with
  | nil => intro acc; simp [processChunk]
  | cons row rest ih =>
    intro acc
    have hd : (false || (natTruthy none && decide ((none : Option Nat).getD 0 ≤ (if rowKept filter row then acc ++ [row] else acc).length))) = false := by
      simp [natTruthy]
    simp only [processChunk, hd]
    by_cases h : rowKept filter row
    · simp only [h, if_true, ih, List.filter_cons]
      simp [h, List.append_assoc]
    · simp only [h, if_false, ih, List.filter_cons]
      simp [h]

/-- Run with no limit: the whole file is delivered and the promise
resolves with every row passing the filter. -/
theorem chunkLoop_no_limit (filter : Option CsvFilter) :
    ∀ (chunks : List (List CsvRow)) (acc : List CsvRow),
      chunkLoop filter none chunks acc =
        CsvPromise.resolved (acc ++ chunks.flatten.filter (rowKept filter)) := by
  intro chunks
  induction chunks with
  | nil => intro acc; simp [chunkLoop]
  | cons chunk rest ih =>
    intro acc
    simp only [chunkLoop, processChunk_no_limit, ih]
    simp [List.filter_append, List.append_assoc]

/-- A limit of `0` is falsy, so chunk delivery behaves as with no limit. -/
theorem processChunk_limit_zero (filter : Option CsvFilter) :
    ∀ (rows acc : List CsvRow) (d : Bool),
      processChunk filter (some 0) rows acc d = processChunk filter none rows acc d := by
  intro rows
  induction rows with
  | nil => intro acc d; rfl
  | cons row rest ih =>
    intro acc d
    have h0 : natTruthy (some 0) = natTruthy none := rfl
    simp only [processChunk, h0, ih]
    rfl

/-- A limit of `0` is falsy, so the whole run behaves as with no limit. -/
theorem chunkLoop_limit_zero (filter : Option CsvFilter) :
    ∀ (chunks : List (List CsvRow)) (acc : List CsvRow),
      chunkLoop filter (some 0) chunks acc = chunkLoop filter none chunks acc := by
  intro chunks
  induction chunks with
  | nil => intro acc; rfl
  | cons chunk rest ih =>
    intro acc
    simp only [chunkLoop, processChunk_limit_zero]
    cases hpc : processChunk filter none chunk acc false with
    | mk acc2 d =>
      cases d
      · simp only [ih]
      · rfl

/-- Appending a fresh binding makes it the one found for its name. -/
theorem regGet_append_self (name : String) (ds : DataSource) :
    ∀ (reg : Registry), regGet reg name = none →
      regGet (reg ++ [(name, ds)]) name = some ds := by
  intro reg
  induction reg with
  | nil => intro _; simp [regGet]
  | cons p rest ih =>
    intro h
    cases hpq : (p.1 == name) with
    | true =>
      exfalso
      simp [regGet, List.find?_cons_of_pos, hpq] at h
    | false =>
      have h2 : regGet rest name = none := by
        simpa [regGet, List.find?_cons_of_neg, hpq] using h
      simpa [regGet, List.find?_cons_of_neg, hpq] using ih h2

/-! Claim theorems. -/

theorem readJson_resolved (reg : Registry) (name : String) (ds : DataSource)
    (doc : JValue) (p : String)
    (hreg : regGet reg name = some ds) (hty : ds.type = "json")
    (hp : p.isEmpty = false) :
    readJson reg name doc (some p) = evalJsonPath doc p := by
  simp [readJson, hreg, hty, hp]

/-- C1 (counterexample): against the registered json source and the document
of the spec (which has no field named missing), `readJson` with path
`$.missing.x` does not succeed with an undefined value: the miss at the
first segment leaves `undefined`, and evaluating the following segment
dereferences it, raising a TypeError. -/
theorem C1_counterexample :
    readJson regJson "docsrc" docAB (some "$.missing.x") =
      Except.error "TypeError: Cannot read properties of undefined" := rfl

/-- C1 (amended): for every registered json source and every parsed object
document without a field named missing, `readJson` with `$.missing.x`
raises a TypeError (the undefined intermediate value is dereferenced by the
next segment) rather than returning an undefined result; a miss at the
final segment (`$.missing`) does return an undefined result without error;
and `$.a.b[0]` against the spec document returns 10. -/
theorem C1_amended (reg : Registry) (name : String) (ds : DataSource)
    (fields : List (String × JValue))
    (hreg : regGet reg name = some ds) (hty : ds.type = "json")
    (hmiss : lookupField fields "missing" = JValue.undef) :
    readJson reg name (JValue.obj fields) (some "$.missing.x") =
      Except.error "TypeError: Cannot read properties of undefined" ∧
    readJson reg name (JValue.obj fields) (some "$.missing") = Except.ok JValue.undef ∧
    readJson reg name docAB (some "$.a.b[0]") = Except.ok (JValue.num 10) := by
  refine ⟨?_, ?_, ?_⟩
  · rw [readJson_resolved reg name ds (JValue.obj fields) "$.missing.x" hreg hty rfl]
    have hsplit : splitPath "$.missing.x" = ["missing", "x"] := rfl
    rw [evalJsonPath, hsplit, List.foldlM_cons]
    have hseg1 : evalSegment (JValue.obj fields) "missing" =
        Except.ok (lookupField fields "missing") := rfl
    rw [hseg1, hmiss]
    rfl
  · rw [readJson_resolved reg name ds (JValue.obj fields) "$.missing" hreg hty rfl]
    have hsplit : splitPath "$.missing" = ["missing"] := rfl
    rw [evalJsonPath, hsplit, List.foldlM_cons]
    have hseg1 : evalSegment (JValue.obj fields) "missing" =
        Except.ok (lookupField fields "missing") := rfl
    rw [hseg1, hmiss]
    rfl
  · rw [readJson_resolved reg name ds docAB "$.a.b[0]" hreg hty rfl]
    rfl

/-- C1 (witness): the amended claim instantiated at the registered json
fixture and the spec document. -/
theorem C1_witness :
    regGet regJson "docsrc" = some dsJson ∧
    dsJson.type = "json" ∧
    lookupField docABfields "missing" = JValue.undef ∧
    (readJson regJson "docsrc" (JValue.obj docABfields) (some "$.missing.x") =
        Except.error "TypeError: Cannot read properties of undefined" ∧
      readJson regJson "docsrc" (JValue.obj docABfields) (some "$.missing") = Except.ok JValue.undef ∧
      readJson regJson "docsrc" docAB (some "$.a.b[0]") = Except.ok (JValue.num 10)) :=
  ⟨rfl, rfl, rfl, C1_amended regJson "docsrc" dsJson docABfields rfl rfl rfl⟩

/-- C2 (code bug): against the registered csv source whose 3-row file
arrives as a single source chunk, `readCsv` with limit 2 and no filter
does not resolve with exactly 2 rows as the claim (and the spec's
early-cancellation contract) requires.  `stream.destroy()` is called on
the source after the second kept row, but the third row was already
buffered in the parser and is still pushed, and the destroyed source never
emits its end event, so the parser's end event never fires and the promise
stays pending forever — with all 3 rows, not 2, in the internal record
list. -/
theorem C2_code_bug :
    readCsv regCsv "rows" none (some 2) [sampleRows] =
      Except.ok (CsvPromise.pending sampleRows) ∧
    sampleRows.length = 3 := ⟨rfl, rfl⟩

/-- C3: for every registry state and every already-registered name,
`registerDataSource` with that name fails with the duplicate-name error and
leaves the registry unchanged: the first descriptor is still present under
the name and the registry size is the same. -/
theorem C3_duplicate_name (fsExists : String → Bool) (reg : Registry)
    (name type : String) (cfg : Config) (d : DataSource)
    (hreg : regGet reg name = some d) :
    registerDataSource fsExists reg name type cfg =
      (reg, Except.error ("Data source " ++ squote ++ name ++ squote ++ " already exists")) ∧
    regGet (registerDataSource fsExists reg name type cfg).1 name = some d ∧
    (registerDataSource fsExists reg name type cfg).1.length = reg.length := by
  have hhas : regHas reg name = true := by simp [regHas, hreg]
  have h1 : registerDataSource fsExists reg name type cfg =
      (reg, Except.error ("Data source " ++ squote ++ name ++ squote ++ " already exists")) := by
    simp [registerDataSource, hhas]
  exact ⟨h1, by rw [h1]; exact hreg, by rw [h1]⟩

/-- C3 (witness): duplicate registration of the json fixture name. -/
theorem C3_witness :
    regGet regJson "docsrc" = some dsJson ∧
    (registerDataSource (fun _ => true) regJson "docsrc" "csv"
        { path := some "/data/other.csv", url := none, headers := none } =
      (regJson, Except.error ("Data source " ++ squote ++ "docsrc" ++ squote ++ " already exists")) ∧
    regGet (registerDataSource (fun _ => true) regJson "docsrc" "csv"
        { path := some "/data/other.csv", url := none, headers := none }).1 "docsrc" = some dsJson ∧
    (registerDataSource (fun _ => true) regJson "docsrc" "csv"
        { path := some "/data/other.csv", url := none, headers := none }).1.length = regJson.length) :=
  ⟨rfl, C3_duplicate_name (fun _ => true) regJson "docsrc" "csv"
      { path := some "/data/other.csv", url := none, headers := none } dsJson rfl⟩

theorem validateConfig_file_error (fsExists : String → Bool) (type : String) (cfg : Config)
    (hty : type = "sqlite" ∨ type = "csv" ∨ type = "json")
    (hpath : ∀ p, cfg.path = some p → fsExists p = false) :
    ∃ e, validateConfig fsExists type cfg = Except.error e := by
  have hfile : (type == "sqlite" || type == "csv" || type == "json") = true := by
    rcases hty with h | h | h <;> simp [h]
  cases hp : cfg.path with
  | none =>
    refine ⟨"" ++ squote ++ "path" ++ squote ++ " is required for " ++ type ++ " data sources", ?_⟩
    simp [validateConfig, hfile, hp, strTruthy]
  | some p =>
    by_cases hemp : p.isEmpty
    · refine ⟨"" ++ squote ++ "path" ++ squote ++ " is required for " ++ type ++ " data sources", ?_⟩
      simp [validateConfig, hfile, hp, strTruthy, hemp]
    · have hfs : fsExists p = false := hpath p hp
      refine ⟨"File not found: " ++ p, ?_⟩
      simp [validateConfig, hfile, hp, strTruthy, hemp, jsTemplateStr, hfs]

theorem validateConfig_api_error (fsExists : String → Bool) (cfg : Config)
    (hurl : cfg.url = none) :
    ∃ e, validateConfig fsExists "api" cfg = Except.error e := by
  refine ⟨"" ++ squote ++ "url" ++ squote ++ " is required for API data sources", ?_⟩
  simp [validateConfig, hurl, strTruthy]

/-- C4: for every unregistered name, `registerDataSource` fails with an
invalid-config error without storing any entry whenever the kind-specific
precondition is violated: for the file-backed kinds (sqlite, csv, json)
when `config.path` is absent or no file exists at the path, and for the api
kind when `config.url` is absent; the registry is returned unchanged with
the same size. -/
theorem C4_invalid_config (fsExists : String → Bool) (reg : Registry)
    (name type : String) (cfg : Config)
    (hreg : regGet reg name = none)
    (hcond : ((type = "sqlite" ∨ type = "csv" ∨ type = "json") ∧
              (∀ p, cfg.path = some p → fsExists p = false)) ∨
             (type = "api" ∧ cfg.url = none)) :
    (registerDataSource fsExists reg name type cfg).1 = reg ∧
    (∃ e, (registerDataSource fsExists reg name type cfg).2 = Except.error e) ∧
    (registerDataSource fsExists reg name type cfg).1.length = reg.length := by
  have hhas : regHas reg name = false := by simp [regHas, hreg]
  obtain ⟨e, he⟩ : ∃ e, validateConfig fsExists type cfg = Except.error e := by
    rcases hcond with ⟨hty, hpath⟩ | ⟨hty, hurl⟩
    · exact validateConfig_file_error fsExists type cfg hty hpath
    · rw [hty]
      exact validateConfig_api_error fsExists cfg hurl
  have h1 : registerDataSource fsExists reg name type cfg = (reg, Except.error e) := by
    simp [registerDataSource, hhas, he]
  exact ⟨by rw [h1], ⟨e, by rw [h1]⟩, by rw [h1]⟩

/-- C4 (witness): registering a csv source against a non-existent file
fails and leaves the registry unchanged. -/
theorem C4_witness :
    regGet regJson "newsrc" = none ∧
    (((("csv" : String) = "sqlite" ∨ ("csv" : String) = "csv" ∨ ("csv" : String) = "json") ∧
      (∀ p, ({ path := some "/data/nofile.csv", url := none, headers := none } : Config).path = some p →
        (fun _ => false) p = false))) ∧
    ((registerDataSource (fun _ => false) regJson "newsrc" "csv"
        { path := some "/data/nofile.csv", url := none, headers := none }).1 = regJson ∧
      (∃ e, (registerDataSource (fun _ => false) regJson "newsrc" "csv"
        { path := some "/data/nofile.csv", url := none, headers := none }).2 = Except.error e) ∧
      (registerDataSource (fun _ => false) regJson "newsrc" "csv"
        { path := some "/data/nofile.csv", url := none, headers := none }).1.length = regJson.length) :=
  ⟨rfl, ⟨Or.inr (Or.inl rfl), fun _ _ => rfl⟩,
    C4_invalid_config (fun _ => false) regJson "newsrc" "csv"
      { path := some "/data/nofile.csv", url := none, headers := none } rfl
      (Or.inl ⟨Or.inr (Or.inl rfl), fun _ _ => rfl⟩)⟩

/-- C5 (counterexample): on a failure to open the database file, `querySql`
rejects with the connector error carrying the underlying message but
performs no connection close before the error propagates — the event trace
before the promise settles is just the open, with no close. -/
theorem C5_counterexample :
    (querySql regSql "maindb" "SELECT 1" (some "unable to open database file") (Except.ok [])).events =
      [SqlEvent.openConn] ∧
    SqlEvent.closeConn ∉
      (querySql regSql "maindb" "SELECT 1" (some "unable to open database file") (Except.ok [])).events ∧
    (querySql regSql "maindb" "SELECT 1" (some "unable to open database file") (Except.ok [])).outcome =
      Except.error "Failed to open database: unable to open database file" :=
  ⟨rfl, by decide, rfl⟩

/-- C5 (amended): on the success path and on a query-execution error the
connection is closed before the result or error is returned, and both
failure kinds surface as a connector error carrying the underlying
message; but on a failure to open the database file the error is rejected
directly inside the open callback with no preceding close. -/
theorem C5_amended (reg : Registry) (name query : String) (ds : DataSource)
    (hreg : regGet reg name = some ds) (hty : ds.type = "sqlite") :
    (∀ rows, querySql reg name query none (Except.ok rows) =
      { events := [SqlEvent.openConn, SqlEvent.closeConn]
      , outcome := Except.ok (rows.length, rows) }) ∧
    (∀ m, querySql reg name query none (Except.error m) =
      { events := [SqlEvent.openConn, SqlEvent.closeConn]
      , outcome := Except.error ("Query failed: " ++ m) }) ∧
    (∀ m queryRes, querySql reg name query (some m) queryRes =
      { events := [SqlEvent.openConn]
      , outcome := Except.error ("Failed to open database: " ++ m) }) := by
  refine ⟨?_, ?_, ?_⟩
  · intro rows; simp [querySql, hreg, hty]
  · intro m; simp [querySql, hreg, hty]
  · intro m queryRes; simp [querySql, hreg, hty]

/-- C5 (witness): the amended claim instantiated at the sqlite fixture on
the query-error path. -/
theorem C5_witness :
    regGet regSql "maindb" = some dsSql ∧ dsSql.type = "sqlite" ∧
    (querySql regSql "maindb" "SELECT 1" none (Except.error "no such table: t") =
      { events := [SqlEvent.openConn, SqlEvent.closeConn]
      , outcome := Except.error ("Query failed: " ++ "no such table: t") }) :=
  ⟨rfl, rfl, (C5_amended regSql "maindb" "SELECT 1" dsSql rfl rfl).2.1 "no such table: t"⟩

/-- C6: for every registered csv source, with a filter mapping supplied a
row is kept exactly when every (key, value) entry of the filter is strictly
equal to the row value at that key (logical AND, exact equality), and with
no filter every row is kept. -/
theorem C6_filter_conjunction (reg : Registry) (name : String) (ds : DataSource)
    (chunks : List (List CsvRow)) (f : CsvFilter)
    (hreg : regGet reg name = some ds) (hty : ds.type = "csv") :
    readCsv reg name (some f) none chunks =
      Except.ok (CsvPromise.resolved (chunks.flatten.filter
        (fun row => f.all (fun kv => strictEqRowVal (csvGet row kv.1) kv.2)))) ∧
    readCsv reg name none none chunks =
      Except.ok (CsvPromise.resolved chunks.flatten) := by
  constructor
  · rw [readCsv_resolved reg name ds (some f) none chunks hreg hty, chunkLoop_no_limit]
    rfl
  · rw [readCsv_resolved reg name ds none none chunks hreg hty, chunkLoop_no_limit]
    have hk : rowKept none = fun (_ : CsvRow) => true := rfl
    rw [hk, List.filter_true]
    simp

/-- C6 (witness): the filter semantics instantiated at the csv fixture with
a country filter. -/
theorem C6_witness :
    regGet regCsv "rows" = some dsCsv ∧ dsCsv.type = "csv" ∧
    (readCsv regCsv "rows" (some [("country", JValue.str "USA")]) none [sampleRows] =
        Except.ok (CsvPromise.resolved ([sampleRows].flatten.filter
          (fun row => [("country", JValue.str "USA")].all
            (fun kv => strictEqRowVal (csvGet row kv.1) kv.2)))) ∧
      readCsv regCsv "rows" none none [sampleRows] =
        Except.ok (CsvPromise.resolved [sampleRows].flatten)) :=
  ⟨rfl, rfl, C6_filter_conjunction regCsv "rows" dsCsv [sampleRows]
      [("country", JValue.str "USA")] rfl rfl⟩

/-- C7: `transformData` succeeds for every registered source name of any
kind and every operation string, returning the structured acknowledgement
(success flag, message, operation, field, note) without fetching rows or
computing anything (the embedded function only reads the registry), and it
fails exactly when the named source is not registered. -/
theorem C7_transform_ack (reg : Registry) (name op : String) (field : Option String) :
    (∀ d, regGet reg name = some d →
      transformData reg name op field =
        Except.ok { success := true, message := transformMessage op name
                  , operation := op, field := field, note := transformNote }) ∧
    (regGet reg name = none →
      transformData reg name op field =
        Except.error ("Data source " ++ squote ++ name ++ squote ++ " not found")) := by
  constructor
  · intro d hd; simp [transformData, hd]
  · intro h; simp [transformData, h]

/-- C7 (witness): the acknowledgement for an average operation against the
registered sqlite fixture. -/
theorem C7_witness :
    transformData regSql "maindb" "average" (some "amount") =
      Except.ok { success := true, message := transformMessage "average" "maindb"
                , operation := "average", field := some "amount", note := transformNote } :=
  (C7_transform_ack regSql "maindb" "average" (some "amount")).1 dsSql rfl

/-- C8 (counterexample): against the registered api source, a POST request
with a supplied body of JSON null does not carry the body: the code tests
JavaScript truthiness of the body, not presence, so the supplied-but-falsy
body is dropped and the outgoing request has no data field — refuting
"attached exactly when a body is supplied and the method is POST or
PUT". -/
theorem C8_counterexample :
    fetchApiRequest regApi "svc" "/items" "POST" none (some JValue.null) =
      Except.ok { method := "POST"
                , url := jsTemplateStr dsApi.config.url ++ "/items"
                , headers := dsApi.config.headers.getD []
                , params := none
                , data := none } ∧
    (some JValue.null : Option JValue) ≠ (none : Option JValue) := ⟨rfl, by simp⟩

/-- C8 (amended): for every registered api source, the outgoing request
carries the supplied body exactly when the body is supplied, truthy (a
JSON null, false, 0 or empty-string body is dropped like an absent one)
and the method is POST or PUT — in particular for GET and DELETE any
supplied body is ignored — and the target address is the
character-for-character concatenation of the descriptor url and the
endpoint. -/
theorem C8_body_attachment (reg : Registry) (name endpoint method : String)
    (params body : Option JValue) (ds : DataSource)
    (hreg : regGet reg name = some ds) (hty : ds.type = "api") :
    fetchApiRequest reg name endpoint method params body =
      Except.ok { method := method
                , url := jsTemplateStr ds.config.url ++ endpoint
                , headers := ds.config.headers.getD []
                , params := if optTruthy params then params else none
                , data := if optTruthy body = true ∧ (method = "POST" ∨ method = "PUT")
                          then body else none } ∧
    (∀ cfg, fetchApiRequest reg name endpoint method params body = Except.ok cfg →
      (cfg.data = body ∧ optTruthy body = true ∧ (method = "POST" ∨ method = "PUT")) ∨
      (cfg.data = none ∧ ¬(optTruthy body = true ∧ (method = "POST" ∨ method = "PUT")))) := by
  have hbool : (optTruthy body && (method == "POST" || method == "PUT")) = true ↔
      (optTruthy body = true ∧ (method = "POST" ∨ method = "PUT")) := by
    simp
  have hmain : fetchApiRequest reg name endpoint method params body =
      Except.ok { method := method
                , url := jsTemplateStr ds.config.url ++ endpoint
                , headers := ds.config.headers.getD []
                , params := if optTruthy params then params else none
                , data := if optTruthy body = true ∧ (method = "POST" ∨ method = "PUT")
                          then body else none } := by
    simp only [fetchApiRequest, hreg, hty]
    rw [if_neg (by simp)]
    simp only [buildApiRequest]
    by_cases hcond : optTruthy body = true ∧ (method = "POST" ∨ method = "PUT")
    · rw [if_pos (hbool.mpr hcond), if_pos hcond]
    · rw [if_neg (fun hc => hcond (hbool.mp hc)), if_neg hcond]
  refine ⟨hmain, ?_⟩
  intro cfg hcfg
  rw [hmain] at hcfg
  have hcfg2 := Except.ok.inj hcfg
  by_cases hcond : optTruthy body = true ∧ (method = "POST" ∨ method = "PUT")
  · left
    refine ⟨?_, hcond⟩
    rw [← hcfg2]
    simp [hcond]
  · right
    refine ⟨?_, hcond⟩
    rw [← hcfg2]
    simp [hcond]

/-- C8 (witness): a GET request with a supplied truthy body against the api
fixture; the built request matches the characterization (which makes its
data field none). -/
theorem C8_witness :
    regGet regApi "svc" = some dsApi ∧ dsApi.type = "api" ∧
    fetchApiRequest regApi "svc" "/users" "GET" none (some (JValue.obj [("k", JValue.num 1)])) =
      Except.ok { method := "GET"
                , url := jsTemplateStr dsApi.config.url ++ "/users"
                , headers := dsApi.config.headers.getD []
                , params := if optTruthy none then none else none
                , data := if optTruthy (some (JValue.obj [("k", JValue.num 1)])) = true ∧
                            (("GET" : String) = "POST" ∨ ("GET" : String) = "PUT")
                          then some (JValue.obj [("k", JValue.num 1)]) else none } :=
  ⟨rfl, rfl,
    (C8_body_attachment regApi "svc" "/users" "GET" none
      (some (JValue.obj [("k", JValue.num 1)])) dsApi rfl rfl).1⟩

/-- C9: for every unregistered name and every type string outside the four
declared kinds, `registerDataSource` succeeds for any file system and any
config — no validation runs — and stores a descriptor carrying the
arbitrary type string in the registry. -/
theorem C9_unknown_type (fsExists : String → Bool) (reg : Registry)
    (name type : String) (cfg : Config)
    (hreg : regGet reg name = none)
    (h1 : type ≠ "sqlite") (h2 : type ≠ "api") (h3 : type ≠ "csv") (h4 : type ≠ "json") :
    registerDataSource fsExists reg name type cfg =
      (reg ++ [(name, { type := type, name := name, config := cfg })],
       Except.ok { success := true
                 , message := "Data source " ++ squote ++ name ++ squote ++ " registered successfully"
                 , dataSource := { type := type, name := name, config := cfg } }) ∧
    regGet (registerDataSource fsExists reg name type cfg).1 name =
      some { type := type, name := name, config := cfg } := by
  have hhas : regHas reg name = false := by simp [regHas, hreg]
  have hval : validateConfig fsExists type cfg = Except.ok () := by
    simp [validateConfig, h1, h2, h3, h4]
  have hmain : registerDataSource fsExists reg name type cfg =
      (reg ++ [(name, { type := type, name := name, config := cfg })],
       Except.ok { success := true
                 , message := "Data source " ++ squote ++ name ++ squote ++ " registered successfully"
                 , dataSource := { type := type, name := name, config := cfg } }) := by
    simp [registerDataSource, hhas, hval, regSet]
  refine ⟨hmain, ?_⟩
  rw [hmain]
  exact regGet_append_self name { type := type, name := name, config := cfg } reg hreg

/-- C9 (witness): registering a mongodb-typed source with an empty config
against a file system where no file exists still succeeds and stores the
descriptor. -/
theorem C9_witness :
    regGet regJson "extsrc" = none ∧
    (registerDataSource (fun _ => false) regJson "extsrc" "mongodb"
        { path := none, url := none, headers := none } =
      (regJson ++ [("extsrc", { type := "mongodb", name := "extsrc"
                              , config := { path := none, url := none, headers := none } })],
       Except.ok { success := true
                 , message := "Data source " ++ squote ++ "extsrc" ++ squote ++ " registered successfully"
                 , dataSource := { type := "mongodb", name := "extsrc"
                                 , config := { path := none, url := none, headers := none } } }) ∧
    regGet (registerDataSource (fun _ => false) regJson "extsrc" "mongodb"
        { path := none, url := none, headers := none }).1 "extsrc" =
      some { type := "mongodb", name := "extsrc"
           , config := { path := none, url := none, headers := none } }) :=
  ⟨rfl, C9_unknown_type (fun _ => false) regJson "extsrc" "mongodb"
      { path := none, url := none, headers := none } rfl
      (by decide) (by decide) (by decide) (by decide)⟩

/-- C10: a supplied limit of 0 is falsy in the limit test, so `readCsv`
with limit 0 behaves exactly as with no limit: the whole file is read and
every filter-matching row is returned, for every registered csv source and
every filter. -/
theorem C10_limit_zero (reg : Registry) (name : String) (filter : Option CsvFilter)
    (chunks : List (List CsvRow)) :
    readCsv reg name filter (some 0) chunks = readCsv reg name filter none chunks ∧
    (∀ ds, regGet reg name = some ds → ds.type = "csv" →
      readCsv reg name filter (some 0) chunks =
        Except.ok (CsvPromise.resolved (chunks.flatten.filter (rowKept filter)))) := by
  constructor
  · cases hr : regGet reg name with
    | none => simp [readCsv, hr]
    | some ds =>
      by_cases hty : (ds.type != "csv") = true
      · simp [readCsv, hr, hty]
      · simp [readCsv, hr, hty, chunkLoop_limit_zero]
  · intro ds hreg hty
    rw [readCsv_resolved reg name ds filter (some 0) chunks hreg hty,
      chunkLoop_limit_zero, chunkLoop_no_limit]
    simp

/-- C10 (witness): limit 0 at the csv fixture returns all rows. -/
theorem C10_witness :
    regGet regCsv "rows" = some dsCsv ∧ dsCsv.type = "csv" ∧
    readCsv regCsv "rows" none (some 0) [sampleRows] =
      Except.ok (CsvPromise.resolved ([sampleRows].flatten.filter (rowKept none))) :=
  ⟨rfl, rfl, (C10_limit_zero regCsv "rows" none [sampleRows]).2 dsCsv rfl rfl⟩
